import Mathlib

/-!
Shallow embedding of `src/entrez.py`, a thin client for the NCBI Entrez
E-utilities, together with theorems settling the specification claims.

The module has four functions:
  * `equery`  — validates a tool name and a parameter set, issues one POST
    request and yields the decoded, right-stripped lines of the response;
  * `eselect` — runs `equery` with `usehistory='y'` and scrapes the first
    occurrence of each of `<WebEnv>…</WebEnv>`, `<QueryKey>…</QueryKey>`,
    `<Count>…</Count>` into a handle dict;
  * `eapply`  — pages through a selected result set in windows of `retmax`;
  * `on_search` — composes `eselect` then `eapply`.

The network is modelled as an oracle `Net : Request → List ByteLine` mapping
each issued request to the byte lines of its response body.  Every generator
is modelled eagerly as a `GenResult`: the list of network requests it issues,
the lines it yields (in order, up to the point of any error), and the
exception, if any, it raises after those lines.  Python exceptions raised by
the code (`AssertionError` from the validation asserts, `KeyError` from
`elems['WebEnv']` / `elems['QueryKey']`, `ValueError` from `int(...)` and
`range(..., 0)`, `AttributeError` from `search(...).groups()` when the regex
does not match) become constructors of `PyErr`.
-/

namespace Entrez

/-- One line of a raw response body, as a list of byte values. -/
abbrev ByteLine := List Nat

/-- Python exceptions raised by the code of `entrez.py`. -/
inductive PyErr where
  | assertionError (msg : String)
  | keyError (key : String)
  | valueError
  | attributeError
deriving DecidableEq, Repr

/-- The specification's `InvalidRequest` error kind: caller errors raised
synchronously before any I/O — a tool outside the allowed set or a parameter
outside the allow-list (`AssertionError` in the code), or pagination without
`WebEnv`/`QueryKey` (`KeyError` in the code). -/
def PyErr.isInvalidRequest : PyErr → Bool
  | .assertionError _ => true
  | .keyError _ => true
  | .valueError => false
  | .attributeError => false

/-- `_valid_tools` from the source. -/
def validTools : List String :=
  ["info", "search", "post", "summary", "fetch", "link", "gquery", "citmatch"]

/-- `_valid_params` from the source. -/
def validParams : List String :=
  ["db", "dbfrom", "term", "id", "usehistory", "query_key", "WebEnv",
   "rettype", "retmode", "retstart", "retmax"]

/-- The characters of the ASCII range that Python's `str.isspace` (hence
`str.rstrip` with no argument) and `re`'s `\s` treat as whitespace:
space, `\t`, `\n`, `\v`, `\f`, `\r` and the separators `\x1c`–`\x1f`.
All lines this code decodes are ASCII (`decode('ascii', errors='ignore')`),
so the non-ASCII whitespace code points never occur. -/
def isPySpace (c : Char) : Bool :=
  c.toNat == 32 || c.toNat == 9 || c.toNat == 10 || c.toNat == 11 ||
  c.toNat == 12 || c.toNat == 13 || (28 ≤ c.toNat && c.toNat ≤ 31)

/-- `str.rstrip()` on a character list: drop the maximal trailing run of
whitespace characters. -/
def rstripChars (cs : List Char) : List Char :=
  (cs.reverse.dropWhile isPySpace).reverse

/-- `line.rstrip()` from the source. -/
def pyRstrip (s : String) : String :=
  (rstripChars s.toList).asString

/-- `line_bytes.decode('ascii', errors='ignore')` from the source: bytes
below 128 become the corresponding characters, undecodable bytes are
dropped (repair by omission). -/
def decodeAsciiIgnore (bs : ByteLine) : String :=
  ((bs.filter (fun b => b < 128)).map Char.ofNat).asString

/-- One network request: the tool embedded in the URL path and the
form-encoded parameter set of the POST body, in insertion order. -/
structure Request where
  tool : String
  params : List (String × String)
deriving DecidableEq, Repr

/-- The network oracle: the byte lines of the response body each request
would receive. -/
abbrev Net := Request → List ByteLine

/-- The observable behaviour of one of the module's generators: the network
requests it issues in order, the lines it yields in order, and the exception
it raises after those lines, if any. -/
structure GenResult where
  requests : List Request
  lines : List String
  err : Option PyErr
deriving DecidableEq, Repr

/-- The validation of `equery`: the tool is in `_valid_tools` and every
parameter key is in `_valid_params`. -/
def equeryValid (tool : String) (params : List (String × String)) : Bool :=
  validTools.contains tool && params.all (fun kv => validParams.contains kv.1)

/-- `equery(tool, **params)` from the source: assert the tool and all
parameter keys are valid (raising `AssertionError` before any network
activity otherwise), then issue one POST request and yield each response
line decoded with `decode('ascii', errors='ignore')` and right-stripped
with `rstrip()`. -/
def equery (tool : String) (params : List (String × String)) (net : Net) :
    GenResult :=
  if validTools.contains tool then
    match params.find? (fun kv => !validParams.contains kv.1) with
    | some kv => ⟨[], [], some (.assertionError ("Unknown parameter: " ++ kv.1))⟩
    | none =>
      let req : Request := ⟨tool, params⟩
      ⟨[req], (net req).map (fun bs => pyRstrip (decodeAsciiIgnore bs)), none⟩
  else ⟨[], [], some (.assertionError ("Invalid web tool: " ++ tool))⟩

/-- Substring test, Python's `pat in line` on character lists. -/
def containsSub (pat : List Char) : List Char → Bool
  | [] => pat.isEmpty
  | c :: cs => pat.isPrefixOf (c :: cs) || containsSub pat cs

/-- Greedy backtracking for `(\S+)close` at a fixed position: try capture
lengths from `n` down to `1` and keep the first (longest) for which `close`
follows the captured characters. -/
def greedyLens (close cs : List Char) : Nat → Option (List Char)
  | 0 => none
  | n + 1 =>
    if close.isPrefixOf (cs.drop (n + 1)) then some (cs.take (n + 1))
    else greedyLens close cs n

/-- Match `(\S+)close` at the start of `cs`: the capture is a maximal-length
nonempty run of non-whitespace characters after which `close` matches,
exactly as the greedy `\S+` of `re.search` backtracks. -/
def greedyMatch (close cs : List Char) : Option (List Char) :=
  greedyLens close cs ((cs.takeWhile (fun c => !isPySpace c)).length)

/-- `re.search('opn(\S+)close', line)`: scan positions left to right; at
each occurrence of `opn` try the greedy `(\S+)close` match and return the
first capture found. -/
def searchTagAux (opn close : List Char) : List Char → Option (List Char)
  | [] => none
  | c :: cs =>
    match
      (if opn.isPrefixOf (c :: cs) then greedyMatch close ((c :: cs).drop opn.length)
       else none) with
    | some v => some v
    | none => searchTagAux opn close cs

/-- `search('<%s>(\S+)</%s>' % (k, k), line)` from the source, returning the
captured group. -/
def searchTagValue (k : String) (line : String) : Option String :=
  (searchTagAux ("<" ++ k ++ ">").toList ("</" ++ k ++ ">").toList
      line.toList).map List.asString

/-- The `elems` dict built by `eselect`: the three keys it ever assigns. -/
structure Handle where
  WebEnv : Option String := none
  QueryKey : Option String := none
  Count : Option String := none
deriving DecidableEq, Repr

/-- One key of the inner loop of `eselect`: if the key is not yet in the
dict and `'<k>'` occurs in the line, store the regex capture —
`search(...).groups()[0]` raises `AttributeError` when the containment test
succeeded but the regex found no match. -/
def scanField (k : String) (cur : Option String) (line : String) :
    Except PyErr (Option String) :=
  if cur.isNone && containsSub ("<" ++ k ++ ">").toList line.toList then
    match searchTagValue k line with
    | some v => .ok (some v)
    | none => .error .attributeError
  else .ok cur

/-- The body of `eselect`'s loop for one line: try `WebEnv`, `QueryKey`,
`Count` in that order; an exception propagates. -/
def scanLine (h : Handle) (line : String) : Except PyErr Handle :=
  match scanField "WebEnv" h.WebEnv line with
  | .error e => .error e
  | .ok w =>
    match scanField "QueryKey" h.QueryKey line with
    | .error e => .error e
    | .ok q =>
      match scanField "Count" h.Count line with
      | .error e => .error e
      | .ok c => .ok ⟨w, q, c⟩

/-- `eselect`'s loop over all yielded lines. -/
def scanLines : Handle → List String → Except PyErr Handle
  | h, [] => .ok h
  | h, l :: ls =>
    match scanLine h l with
    | .error e => .error e
    | .ok h' => scanLines h' ls

/-- `eselect(tool, db, **params)` from the source: run
`equery(tool=tool, usehistory='y', db=db, **params)`, scan every yielded
line for the first occurrence of each field, and return the handle (or
propagate the exception).  Returns the requests issued alongside. -/
def eselect (tool db : String) (params : List (String × String)) (net : Net) :
    List Request × Except PyErr Handle :=
  let g := equery tool ([("usehistory", "y"), ("db", db)] ++ params) net
  match scanLines ⟨none, none, none⟩ g.lines with
  | .error e => (g.requests, .error e)
  | .ok h =>
    (g.requests,
     match g.err with
     | some e => .error e
     | none => .ok h)

/-- ASCII digit test. -/
def isAsciiDigit (c : Char) : Bool := '0' ≤ c && c ≤ '9'

/-- Value of a digit string (underscore separators already removed). -/
def digitsVal (cs : List Char) : Nat :=
  cs.foldl (fun a c => 10 * a + (c.toNat - 48)) 0

/-- Continuation of a digit run for Python's `int`: digits with single
underscores allowed between digits. -/
def digitsTail : List Char → Bool
  | [] => true
  | ['_'] => false
  | '_' :: c :: rest => isAsciiDigit c && digitsTail rest
  | c :: rest => isAsciiDigit c && digitsTail rest

/-- A nonempty digit run for Python's `int` (a digit, then digits with
single underscores between digits). -/
def digitsOk : List Char → Bool
  | [] => false
  | c :: rest => isAsciiDigit c && digitsTail rest

/-- `str.strip()` on a character list. -/
def stripChars (cs : List Char) : List Char :=
  ((cs.dropWhile isPySpace).reverse.dropWhile isPySpace).reverse

/-- The digit-run part of `int(s)`, after sign handling. -/
def pythonIntCore (sign : Int) (cs : List Char) : Option Int :=
  if digitsOk cs then some (sign * (digitsVal (cs.filter (fun c => c ≠ '_')) : Int))
  else none

/-- `int(s)` from Python on a decimal string: strip whitespace, an optional
sign, then a nonempty digit run (with underscore grouping); anything else
raises `ValueError` (here: `none`). -/
def pythonInt (s : String) : Option Int :=
  match stripChars s.toList with
  | '+' :: rest => pythonIntCore 1 rest
  | '-' :: rest => pythonIntCore (-1) rest
  | cs => pythonIntCore 1 cs

/-- Length of `range(0, stop, step)` for `step > 0` (an `Int` stop, as
`int(...)` may be negative). -/
def pyRangeLen (stop : Int) (step : Nat) : Nat :=
  if stop ≤ 0 then 0 else (stop - 1).toNat / step + 1

/-- `range(0, stop, step)` for `step > 0`: the multiples of `step` below
`stop`, in increasing order. -/
def pyRange (stop : Int) (step : Nat) : List Nat :=
  (List.range (pyRangeLen stop step)).map (fun i => i * step)

/-- The parameter set `eapply` passes to `equery` for the page starting at
`off`: keyword order `db`, `WebEnv`, `query_key`, `retstart`, `retmax`,
then the caller's extra parameters. -/
def pageParams (db we qk : String) (off retmax : Nat)
    (params : List (String × String)) : List (String × String) :=
  [("db", db), ("WebEnv", we), ("query_key", qk),
   ("retstart", toString off), ("retmax", toString retmax)] ++ params

/-- The inner loop of `eapply`: run `equery` for each offset in turn,
concatenating requests and yielded lines; an exception from a page aborts
the remaining pages. -/
def runPages (tool : String) (mk : Nat → List (String × String)) (net : Net) :
    List Nat → GenResult
  | [] => ⟨[], [], none⟩
  | off :: rest =>
    let g := equery tool (mk off) net
    match g.err with
    | some e => ⟨g.requests, g.lines, some e⟩
    | none =>
      let r := runPages tool mk net rest
      ⟨g.requests ++ r.requests, g.lines ++ r.lines, r.err⟩

/-- The lookup `elems['QueryKey']` on the first loop iteration: `KeyError`
when absent, otherwise the pages run. -/
def eapplyQk (tool db : String) (retmax : Nat)
    (params : List (String × String)) (net : Net) (offs : List Nat)
    (we : String) : Option String → GenResult
  | none => ⟨[], [], some (.keyError "QueryKey")⟩
  | some qk =>
    runPages tool (fun o => pageParams db we qk o retmax params) net offs

/-- The lookup `elems['WebEnv']` on the first loop iteration: `KeyError`
when absent (checked before `elems['QueryKey']`). -/
def eapplyWe (tool db : String) (retmax : Nat)
    (params : List (String × String)) (net : Net) (offs : List Nat)
    (qkOpt : Option String) : Option String → GenResult
  | none => ⟨[], [], some (.keyError "WebEnv")⟩
  | some we => eapplyQk tool db retmax params net offs we qkOpt

/-- The loop of `eapply` once the offsets are known: if there is no offset
the loop body never runs (so the handle's fields are never read); on the
first iteration `elems['WebEnv']` then `elems['QueryKey']` may raise
`KeyError`, both before the first page's `equery` generator is even
created; otherwise every page runs `equery` in order. -/
def eapplyPages (tool db : String) (retmax : Nat)
    (params : List (String × String)) (net : Net)
    (weOpt qkOpt : Option String) : List Nat → GenResult
  | [] => ⟨[], [], none⟩
  | off :: offs =>
    eapplyWe tool db retmax params net (off :: offs) qkOpt weOpt

/-- `eapply` after evaluating `int(elems.get('Count', '1'))`: `int(...)`
may have raised `ValueError`; then `range` with step `0` raises
`ValueError`; then the loop runs over `range(0, cnt, retmax)`. -/
def eapplyCnt (tool db : String) (elems : Handle) (retmax : Nat)
    (params : List (String × String)) (net : Net) : Option Int → GenResult
  | none => ⟨[], [], some .valueError⟩
  | some cnt =>
    if retmax = 0 then ⟨[], [], some .valueError⟩
    else
      eapplyPages tool db retmax params net elems.WebEnv elems.QueryKey
        (pyRange cnt retmax)

/-- `eapply(tool, db, elems, retmax=500, **params)` from the source:
`for retstart in range(0, int(elems.get('Count', '1')), retmax)` run
`equery(tool=tool, db=db, WebEnv=elems['WebEnv'],
query_key=elems['QueryKey'], retstart=retstart, retmax=retmax, **params)`
and yield its lines. -/
def eapply (tool db : String) (elems : Handle) (retmax : Nat)
    (params : List (String × String)) (net : Net) : GenResult :=
  eapplyCnt tool db elems retmax params net
    (pythonInt (elems.Count.getD "1"))

/-- `on_search(db, term, tool, db2=None, **params)` from the source:
`eapply(elems=eselect(tool='search', db=db, term=term), db=(db2 or db),
tool=tool, **params)` with the default `retmax=500`. -/
def on_search (db term tool : String) (db2 : Option String)
    (params : List (String × String)) (net : Net) : GenResult :=
  let s := eselect "search" db [("term", term)] net
  match s.2 with
  | .error e => ⟨s.1, [], some e⟩
  | .ok elems =>
    let g := eapply tool (db2.getD db) elems 500 params net
    ⟨s.1 ++ g.requests, g.lines, g.err⟩

/-- ASCII byte values of a string, for writing canned network responses. -/
def asciiBytes (s : String) : ByteLine := s.toList.map Char.toNat

/-- Modelled from the spec's words for C8 only (the source uses `rstrip()`):
strip only trailing line-terminator characters (LF, CR), keeping any other
trailing whitespace. -/
def specStripEOL (s : String) : String :=
  ((s.toList.reverse.dropWhile (fun c => c == '\n' || c == '\r')).reverse).asString

/-! ### Helper lemmas -/

/-- When validation passes, `equery` issues exactly one request and yields
the decoded, right-stripped response lines, raising nothing. -/
theorem equery_of_valid (tool : String) (params : List (String × String))
    (net : Net) (h : equeryValid tool params = true) :
    equery tool params net =
      ⟨[⟨tool, params⟩],
       (net ⟨tool, params⟩).map (fun bs => pyRstrip (decodeAsciiIgnore bs)),
       none⟩ := by
  unfold equeryValid at h
  rw [Bool.and_eq_true] at h
  obtain ⟨h1, h2⟩ := h
  have hfind : params.find? (fun kv => !validParams.contains kv.1) = none := by
    rw [List.find?_eq_none]
    intro kv hkv
    have hv := List.all_eq_true.mp h2 kv hkv
    simp only [hv, Bool.not_true, Bool.false_eq_true, not_false_eq_true]
  unfold equery
  rw [if_pos h1, hfind]

/-- When validation fails, `equery` raises an `AssertionError` before any
network activity: no request, no lines. -/
theorem equery_of_invalid (tool : String) (params : List (String × String))
    (net : Net) (h : equeryValid tool params = false) :
    ∃ msg, equery tool params net = ⟨[], [], some (.assertionError msg)⟩ := by
  unfold equery
  cases hc : validTools.contains tool with
  | false =>
    rw [if_neg (by simp)]
    exact ⟨"Invalid web tool: " ++ tool, rfl⟩
  | true =>
    rw [if_pos rfl]
    unfold equeryValid at h
    rw [hc] at h
    simp only [Bool.true_and] at h
    have hex : ∃ kv, kv ∈ params ∧ (fun kv : String × String =>
        !validParams.contains kv.1) kv = true := by
      rcases List.all_eq_false.mp h with ⟨kv, hkv, hv⟩
      exact ⟨kv, hkv, by simpa using hv⟩
    obtain ⟨kv', hfind⟩ := Option.isSome_iff_exists.mp (List.find?_isSome.mpr hex)
    rw [hfind]
    exact ⟨"Unknown parameter: " ++ kv'.1, rfl⟩

/-- `range(0, stop, step)` is nonempty whenever `stop` is positive. -/
theorem pyRange_ne_nil (stop : Int) (step : Nat) (h : 0 < stop) :
    pyRange stop step ≠ [] := by
  unfold pyRange pyRangeLen
  rw [if_neg (by omega)]
  simp

/-- `range(0, stop, step)` is empty whenever `stop ≤ 0`. -/
theorem pyRange_eq_nil (stop : Int) (step : Nat) (h : stop ≤ 0) :
    pyRange stop step = [] := by
  unfold pyRange pyRangeLen
  rw [if_pos h]
  rfl

/-- `equery`'s validation of a page request does not depend on the offset:
the fixed keys `db`, `WebEnv`, `query_key`, `retstart`, `retmax` are all in
the allow-list, so only the tool and the caller's extra keys matter. -/
theorem pageParams_valid (tool db we qk : String) (off retmax : Nat)
    (params : List (String × String)) :
    equeryValid tool (pageParams db we qk off retmax params) =
      (validTools.contains tool &&
       params.all (fun kv => validParams.contains kv.1)) := by
  unfold equeryValid pageParams
  simp only [List.all_append, List.all_cons, List.all_nil]
  rw [show validParams.contains "db" = true from rfl,
    show validParams.contains "WebEnv" = true from rfl,
    show validParams.contains "query_key" = true from rfl,
    show validParams.contains "retstart" = true from rfl,
    show validParams.contains "retmax" = true from rfl]
  simp only [Bool.true_and]

/-- When every page's request validates, the page loop issues one request
per offset in order and yields the concatenation of the pages' decoded
lines, raising nothing. -/
theorem runPages_of_valid (tool : String) (mk : Nat → List (String × String))
    (net : Net) (offs : List Nat)
    (h : ∀ off ∈ offs, equeryValid tool (mk off) = true) :
    runPages tool mk net offs =
      ⟨offs.map (fun off => ⟨tool, mk off⟩),
       (offs.map (fun off => (net ⟨tool, mk off⟩).map
         (fun bs => pyRstrip (decodeAsciiIgnore bs)))).flatten,
       none⟩ := by
  induction offs with
  | nil => rfl
  | cons off rest ih =>
    simp only [runPages]
    rw [equery_of_valid tool (mk off) net (h off (List.mem_cons_self off rest)),
      ih (fun o ho => h o (List.mem_cons_of_mem off ho))]
    rfl

/-- When the first page's request fails validation, the page loop yields no
line (the `AssertionError` aborts it before any output). -/
theorem runPages_lines_of_invalid (tool : String)
    (mk : Nat → List (String × String)) (net : Net) (off : Nat)
    (rest : List Nat) (h : equeryValid tool (mk off) = false) :
    (runPages tool mk net (off :: rest)).lines = [] := by
  obtain ⟨msg, hq⟩ := equery_of_invalid tool (mk off) net h
  simp only [runPages]
  rw [hq]

/-- Master lemma: with a complete handle, a parsed count, a positive page
size and a validating page request, `eapply` issues one request per offset
of `range(0, count, retmax)` in ascending order and yields the
concatenation of the pages' decoded lines, raising nothing. -/
theorem eapply_of_valid (tool db we qk : String) (elems : Handle) (n : Int)
    (retmax : Nat) (params : List (String × String)) (net : Net)
    (hw : elems.WebEnv = some we) (hq : elems.QueryKey = some qk)
    (hc : pythonInt (elems.Count.getD "1") = some n) (hret : 0 < retmax)
    (hvalid : equeryValid tool (pageParams db we qk 0 retmax params) = true) :
    eapply tool db elems retmax params net =
      ⟨(pyRange n retmax).map
         (fun off => ⟨tool, pageParams db we qk off retmax params⟩),
       ((pyRange n retmax).map
         (fun off => (net ⟨tool, pageParams db we qk off retmax params⟩).map
           (fun bs => pyRstrip (decodeAsciiIgnore bs)))).flatten,
       none⟩ := by
  have hall : ∀ off ∈ pyRange n retmax,
      equeryValid tool (pageParams db we qk off retmax params) = true := by
    intro off _
    rw [pageParams_valid]
    rw [pageParams_valid] at hvalid
    exact hvalid
  unfold eapply
  rw [hc]
  simp only [eapplyCnt]
  rw [if_neg (by omega), hw, hq]
  cases hr : pyRange n retmax with
  | nil => rfl
  | cons o os =>
    simp only [eapplyPages, eapplyWe, eapplyQk]
    rw [runPages_of_valid tool _ net (o :: os) (fun off ho => by
      rw [← hr] at ho
      exact hall off ho)]

/-- The `i`-th element of `range(0, stop, step)` for positive `step`: it is
`i * step` exactly when `i * step < stop`, and absent otherwise. -/
theorem pyRange_getElem? (n : Int) (retmax : Nat) (hret : 0 < retmax)
    (i : Nat) :
    (pyRange n retmax)[i]? =
      if ((i * retmax : Nat) : Int) < n then some (i * retmax) else none := by
  by_cases hi : i < pyRangeLen n retmax
  · rw [show pyRange n retmax = (List.range (pyRangeLen n retmax)).map
        (fun j => j * retmax) from rfl,
      List.getElem?_map, List.getElem?_range hi, if_pos]
    · rfl
    · unfold pyRangeLen at hi
      by_cases hn : n ≤ 0
      · rw [if_pos hn] at hi; omega
      · rw [if_neg hn] at hi
        have h1 : i ≤ (n - 1).toNat / retmax := by omega
        have h2 : i * retmax ≤ (n - 1).toNat :=
          (Nat.le_div_iff_mul_le hret).mp h1
        have h3 : ((n - 1).toNat : Int) = n - 1 := Int.toNat_of_nonneg (by omega)
        have h4 : ((i * retmax : Nat) : Int) ≤ ((n - 1).toNat : Int) :=
          Int.ofNat_le.mpr h2
        omega
  · rw [List.getElem?_eq_none, if_neg]
    · unfold pyRangeLen at hi
      by_cases hn : n ≤ 0
      · have : ((i * retmax : Nat) : Int) ≥ 0 := Int.ofNat_nonneg _
        omega
      · rw [if_neg hn] at hi
        have h1 : (n - 1).toNat / retmax + 1 ≤ i := by omega
        have h2 : ¬ i * retmax ≤ (n - 1).toNat := by
          intro hle
          have := (Nat.le_div_iff_mul_le hret).mpr hle
          omega
        have h3 : ((n - 1).toNat : Int) = n - 1 := Int.toNat_of_nonneg (by omega)
        intro hlt
        have : (i * retmax : Nat) ≤ (n - 1).toNat := by omega
        exact h2 this
    · rw [show pyRange n retmax = (List.range (pyRangeLen n retmax)).map
          (fun j => j * retmax) from rfl]
      simpa using hi

/-! ### Claim C2 -/

/-- C2: for every tool not in the valid-tool set, and for every parameter
set containing a key outside the allow-list, `equery` fails with an
`InvalidRequest`-class error (`AssertionError`) before any network call is
attempted: no request is issued and no line is yielded. -/
theorem equery_invalid_request (tool : String) (params : List (String × String))
    (net : Net)
    (h : validTools.contains tool = false ∨
         ∃ kv ∈ params, validParams.contains kv.1 = false) :
    ∃ e, (equery tool params net).requests = [] ∧
      (equery tool params net).lines = [] ∧
      (equery tool params net).err = some e ∧ e.isInvalidRequest = true := by
  have hinv : equeryValid tool params = false := by
    unfold equeryValid
    rcases h with h | ⟨kv, hm, hv⟩
    · rw [h]; rfl
    · have : params.all (fun kv => validParams.contains kv.1) = false :=
        List.all_eq_false.mpr ⟨kv, hm, by simpa using hv⟩
      rw [this, Bool.and_false]
  obtain ⟨msg, hq⟩ := equery_of_invalid tool params net hinv
  exact ⟨.assertionError msg, by rw [hq], by rw [hq], by rw [hq], rfl⟩

/-- Witness for C2 at a concrete invalid tool. -/
theorem equery_invalid_request_witness :
    ∃ e, (equery "frobnicate" [] (fun _ => [])).requests = [] ∧
      (equery "frobnicate" [] (fun _ => [])).lines = [] ∧
      (equery "frobnicate" [] (fun _ => [])).err = some e ∧
      e.isInvalidRequest = true :=
  equery_invalid_request "frobnicate" [] (fun _ => []) (Or.inl (by decide))

/-! ### Claim C9 -/

/-- C9: there is a response in which a line contains the opening tag
`<Count>` but no match of `<Count>(\S+)</Count>` (here `<Count></Count>`,
an empty value), and on it `eselect` raises an exception
(`AttributeError`, from calling `.groups()` on `None`) instead of
returning a handle with the field absent. -/
theorem eselect_malformed_tag_error :
    (eselect "search" "snp" [] (fun _ => [asciiBytes "<Count></Count>"])).2 =
      .error .attributeError := rfl

/-! ### Claim C1 -/

/-- C1 counterexample: a handle missing both `WebEnv` and `QueryKey` but
with `Count = "0"` makes `eapply` succeed with no error, no request and no
lines — it does not fail with `InvalidRequest` as the claim states for
every handle missing those fields. -/
theorem eapply_missing_handle_no_error :
    (⟨none, none, some "0"⟩ : Handle).WebEnv = none ∧
    (⟨none, none, some "0"⟩ : Handle).QueryKey = none ∧
    eapply "fetch" "snp" ⟨none, none, some "0"⟩ 500 [] (fun _ => []) =
      ⟨[], [], none⟩ := by decide

/-- C1 (amended): for every handle missing `WebEnv` or missing `QueryKey`
whose `Count` (defaulting to `"1"` when absent) parses to a positive
integer, and a positive page size, `eapply` fails with an
`InvalidRequest`-class error (`KeyError` on the missing field) and issues
zero network calls, yielding no lines. -/
theorem eapply_missing_handle_fails (tool db : String) (elems : Handle)
    (retmax : Nat) (params : List (String × String)) (net : Net) (n : Int)
    (hmiss : elems.WebEnv = none ∨ elems.QueryKey = none)
    (hcount : pythonInt (elems.Count.getD "1") = some n)
    (hpos : 0 < n) (hret : 0 < retmax) :
    ∃ e, eapply tool db elems retmax params net = ⟨[], [], some e⟩ ∧
      e.isInvalidRequest = true := by
  obtain ⟨o, os, hoffs⟩ :=
    List.exists_cons_of_ne_nil (pyRange_ne_nil n retmax hpos)
  unfold eapply
  rw [hcount]
  simp only [eapplyCnt]
  rw [if_neg (by omega), hoffs]
  simp only [eapplyPages]
  cases hwe : elems.WebEnv with
  | none =>
    simp only [eapplyWe]
    exact ⟨.keyError "WebEnv", rfl, rfl⟩
  | some we =>
    have hqk : elems.QueryKey = none := by
      rcases hmiss with h | h
      · rw [hwe] at h; cases h
      · exact h
    rw [hqk]
    simp only [eapplyWe, eapplyQk]
    exact ⟨.keyError "QueryKey", rfl, rfl⟩

/-- Witness for C1 (amended) at a concrete handle missing `WebEnv`. -/
theorem eapply_missing_handle_fails_witness :
    ∃ e, eapply "fetch" "snp" ⟨none, some "1", none⟩ 500 [] (fun _ => []) =
      ⟨[], [], some e⟩ ∧ e.isInvalidRequest = true :=
  eapply_missing_handle_fails "fetch" "snp" ⟨none, some "1", none⟩ 500 []
    (fun _ => []) 1 (Or.inl rfl) (by decide) (by decide) (by decide)

/-! ### Claim C10 -/

/-- C10: for every handle whose `Count` field is a string parsing to the
integer `0`, `eapply` issues zero page requests and yields the empty
sequence with no error, even when `WebEnv` and `QueryKey` are absent from
the handle. -/
theorem eapply_count_zero (tool db : String) (elems : Handle) (retmax : Nat)
    (params : List (String × String)) (net : Net) (s : String)
    (hc : elems.Count = some s) (hz : pythonInt s = some 0)
    (hret : 0 < retmax) :
    eapply tool db elems retmax params net = ⟨[], [], none⟩ := by
  unfold eapply
  rw [hc, Option.getD_some, hz]
  simp only [eapplyCnt]
  rw [if_neg (by omega), pyRange_eq_nil 0 retmax (by omega)]
  simp only [eapplyPages]

/-- Witness for C10 at a concrete handle with `Count = "00"` and no
`WebEnv`/`QueryKey`. -/
theorem eapply_count_zero_witness :
    eapply "summary" "protein" ⟨none, none, some "00"⟩ 500 []
      (fun _ => []) = ⟨[], [], none⟩ :=
  eapply_count_zero "summary" "protein" ⟨none, none, some "00"⟩ 500 []
    (fun _ => []) "00" rfl (by decide) (by decide)

/-! ### Claim C4 -/

/-- C4: for a handle with `Count = "1200"` and page size 500, `eapply`
issues exactly 3 page requests with `retstart` values `0`, `500`, `1000`
in that order, each with `retmax = 500`; in general (for a complete handle,
a parsed count, a positive page size and a validating page request) the
page requests are one per offset of `range(0, Count, page_size)` in
ascending order, and offset `i * page_size` is paged exactly while
`i * page_size < Count`. -/
theorem eapply_page_offsets :
    (∀ net : Net,
      (eapply "fetch" "snp" ⟨some "W", some "3", some "1200"⟩ 500 []
          net).requests =
        [⟨"fetch", pageParams "snp" "W" "3" 0 500 []⟩,
         ⟨"fetch", pageParams "snp" "W" "3" 500 500 []⟩,
         ⟨"fetch", pageParams "snp" "W" "3" 1000 500 []⟩]) ∧
    (∀ (tool db we qk : String) (elems : Handle) (n : Int) (retmax : Nat)
        (params : List (String × String)) (net : Net),
      elems.WebEnv = some we → elems.QueryKey = some qk →
      pythonInt (elems.Count.getD "1") = some n → 0 < retmax →
      equeryValid tool (pageParams db we qk 0 retmax params) = true →
      (eapply tool db elems retmax params net).requests =
        (pyRange n retmax).map
          (fun off => ⟨tool, pageParams db we qk off retmax params⟩)) ∧
    (∀ (n : Int) (retmax : Nat), 0 < retmax → ∀ i : Nat,
      (pyRange n retmax)[i]? =
        if ((i * retmax : Nat) : Int) < n then some (i * retmax) else none) := by
  refine ⟨?_, ?_, ?_⟩
  · intro net
    rw [eapply_of_valid "fetch" "snp" "W" "3" _ 1200 500 [] net rfl rfl
      (by decide) (by decide) (by decide)]
    rfl
  · intro tool db we qk elems n retmax params net hw hq hc hret hvalid
    rw [eapply_of_valid tool db we qk elems n retmax params net hw hq hc hret
      hvalid]
  · exact fun n retmax h i => pyRange_getElem? n retmax h i

/-- Witness for C4 at a concrete handle with `Count = "7"` and page size 3
(pages at offsets 0, 3, 6). -/
theorem eapply_page_offsets_witness :
    (eapply "summary" "protein" ⟨some "NCID7", some "2", some "7"⟩ 3 []
        (fun _ => [])).requests =
      (pyRange 7 3).map
        (fun off => ⟨"summary", pageParams "protein" "NCID7" "2" off 3 []⟩) :=
  eapply_page_offsets.2.1 "summary" "protein" "NCID7" "2" _ 7 3 []
    (fun _ => []) rfl rfl (by decide) (by decide) (by decide)

/-! ### Claim C5 -/

/-- C5: for every handle (with `WebEnv` and `QueryKey` present and a
parseable count) and every network oracle — hence every sequence of
per-page responses — the lines yielded by `eapply` are exactly the
concatenation, in ascending offset order, of the line sequences of the
individual page requests: nothing is reordered, dropped or duplicated
across page boundaries. -/
theorem eapply_concat_pages (tool db we qk : String) (elems : Handle)
    (n : Int) (retmax : Nat) (params : List (String × String)) (net : Net)
    (hw : elems.WebEnv = some we) (hq : elems.QueryKey = some qk)
    (hc : pythonInt (elems.Count.getD "1") = some n) (hret : 0 < retmax) :
    (eapply tool db elems retmax params net).lines =
      ((pyRange n retmax).map (fun off =>
        (equery tool (pageParams db we qk off retmax params) net).lines)).flatten := by
  by_cases hv : equeryValid tool (pageParams db we qk 0 retmax params) = true
  · rw [eapply_of_valid tool db we qk elems n retmax params net hw hq hc hret hv]
    show ((pyRange n retmax).map _).flatten = _
    congr 1
    apply List.map_congr_left
    intro off _
    rw [equery_of_valid tool _ net (by
      rw [pageParams_valid]
      rw [pageParams_valid] at hv
      exact hv)]
  · have hvAll : ∀ off, equeryValid tool
        (pageParams db we qk off retmax params) = false := by
      intro off
      rw [pageParams_valid]
      cases hb : equeryValid tool (pageParams db we qk 0 retmax params) with
      | false => rw [pageParams_valid] at hb; exact hb
      | true => exact absurd hb hv
    have hlines0 : ∀ off,
        (equery tool (pageParams db we qk off retmax params) net).lines = [] := by
      intro off
      obtain ⟨msg, hqq⟩ := equery_of_invalid tool _ net (hvAll off)
      rw [hqq]
    unfold eapply
    rw [hc]
    simp only [eapplyCnt]
    rw [if_neg (by omega)]
    cases hr : pyRange n retmax with
    | nil => rfl
    | cons o os =>
      simp only [eapplyPages]
      rw [hw, hq]
      simp only [eapplyWe, eapplyQk]
      rw [runPages_lines_of_invalid tool _ net o os (hvAll o)]
      symm
      rw [List.flatten_eq_nil_iff]
      intro l hl
      obtain ⟨off, _, rfl⟩ := List.mem_map.mp hl
      exact hlines0 off

/-- Witness for C5 at a concrete handle (`Count = "4"`, page size 2, two
pages) and a canned single-line response. -/
theorem eapply_concat_pages_witness :
    (eapply "fetch" "nucleotide" ⟨some "NCID1", some "1", some "4"⟩ 2 []
        (fun _ => [asciiBytes "line"])).lines =
      ((pyRange 4 2).map (fun off =>
        (equery "fetch" (pageParams "nucleotide" "NCID1" "1" off 2 [])
          (fun _ => [asciiBytes "line"])).lines)).flatten :=
  eapply_concat_pages "fetch" "nucleotide" "NCID1" "1" _ 4 2 []
    (fun _ => [asciiBytes "line"]) rfl rfl (by decide) (by decide)

/-! ### Claim C6 -/

/-- C6 counterexample: a handle with `Count` absent but `WebEnv` also
absent makes `eapply` raise `KeyError` with zero page requests — not the
one page request the claim states for every handle without `Count`. -/
theorem eapply_count_absent_keyerror :
    (⟨none, none, none⟩ : Handle).Count = none ∧
    eapply "fetch" "snp" ⟨none, none, none⟩ 500 [] (fun _ => []) =
      ⟨[], [], some (.keyError "WebEnv")⟩ := by decide

/-- C6 (amended): for every handle with `WebEnv` and `QueryKey` present and
`Count` absent, and a validating page request, `eapply` issues exactly one
page request, with `retstart = 0` (`Count` defaults to `"1"`), raising
nothing. -/
theorem eapply_count_absent_single_page (tool db we qk : String)
    (elems : Handle) (retmax : Nat) (params : List (String × String))
    (net : Net) (hcnt : elems.Count = none) (hw : elems.WebEnv = some we)
    (hq : elems.QueryKey = some qk) (hret : 0 < retmax)
    (hvalid : equeryValid tool (pageParams db we qk 0 retmax params) = true) :
    (eapply tool db elems retmax params net).requests =
      [⟨tool, pageParams db we qk 0 retmax params⟩] ∧
    (eapply tool db elems retmax params net).err = none := by
  have hc : pythonInt (elems.Count.getD "1") = some 1 := by
    rw [hcnt]; decide
  rw [eapply_of_valid tool db we qk elems 1 retmax params net hw hq hc hret
    hvalid]
  have h1 : pyRange 1 retmax = [0] := by
    unfold pyRange pyRangeLen
    rw [if_neg (by omega)]
    have h0 : ((1 : Int) - 1).toNat = 0 := by norm_num
    rw [h0, Nat.zero_div]
    rw [show List.range 1 = [0] from rfl]
    simp
  rw [h1]
  exact ⟨rfl, rfl⟩

/-- Witness for C6 (amended) at a concrete handle without `Count`. -/
theorem eapply_count_absent_single_page_witness :
    (eapply "link" "gene" ⟨some "NCID9", some "5", none⟩ 200 []
        (fun _ => [])).requests =
      [⟨"link", pageParams "gene" "NCID9" "5" 0 200 []⟩] ∧
    (eapply "link" "gene" ⟨some "NCID9", some "5", none⟩ 200 []
        (fun _ => [])).err = none :=
  eapply_count_absent_single_page "link" "gene" "NCID9" "5" _ 200 []
    (fun _ => []) rfl rfl rfl (by decide) (by decide)

/-! ### Claim C3 -/

/-- A field already present in the dict is never overwritten. -/
theorem scanField_some (k v : String) (line : String) :
    scanField k (some v) line = .ok (some v) := rfl

/-- C3: on a canned response containing
`<WebEnv>ABC123</WebEnv><QueryKey>1</QueryKey><Count>1200</Count>` — on a
single line, split across three lines, or preceded by an earlier capture of
the same field — `eselect` returns exactly the handle
`{WebEnv: "ABC123", QueryKey: "1", Count: "1200"}`; and in general a field
already captured is never overwritten by a later occurrence (first match
wins). -/
theorem eselect_extracts_handle :
    (eselect "search" "nucleotide" []
        (fun _ => [asciiBytes
          "<WebEnv>ABC123</WebEnv><QueryKey>1</QueryKey><Count>1200</Count>"])).2 =
      .ok ⟨some "ABC123", some "1", some "1200"⟩ ∧
    (eselect "search" "nucleotide" []
        (fun _ => [asciiBytes "<WebEnv>ABC123</WebEnv>",
                   asciiBytes "<QueryKey>1</QueryKey>",
                   asciiBytes "<Count>1200</Count>"])).2 =
      .ok ⟨some "ABC123", some "1", some "1200"⟩ ∧
    (eselect "search" "nucleotide" []
        (fun _ => [asciiBytes "<Count>1200</Count>",
                   asciiBytes
                     "<Count>9</Count><WebEnv>ABC123</WebEnv><QueryKey>1</QueryKey>"])).2 =
      .ok ⟨some "ABC123", some "1", some "1200"⟩ ∧
    (∀ (h : Handle) (line : String) (h' : Handle),
      scanLine h line = .ok h' →
      (∀ v, h.WebEnv = some v → h'.WebEnv = some v) ∧
      (∀ v, h.QueryKey = some v → h'.QueryKey = some v) ∧
      (∀ v, h.Count = some v → h'.Count = some v)) := by
  refine ⟨rfl, rfl, rfl, ?_⟩
  intro h line h' hscan
  unfold scanLine at hscan
  split at hscan
  · exact Except.noConfusion hscan
  rename_i w hW
  split at hscan
  · exact Except.noConfusion hscan
  rename_i q hQ
  split at hscan
  · exact Except.noConfusion hscan
  rename_i c hC
  obtain rfl : (⟨w, q, c⟩ : Handle) = h' := Except.ok.inj hscan
  refine ⟨?_, ?_, ?_⟩
  · intro v hv
    rw [hv, scanField_some] at hW
    exact (Except.ok.inj hW).symm ▸ rfl
  · intro v hv
    rw [hv, scanField_some] at hQ
    exact (Except.ok.inj hQ).symm ▸ rfl
  · intro v hv
    rw [hv, scanField_some] at hC
    exact (Except.ok.inj hC).symm ▸ rfl

/-- Witness for C3's first-match-wins clause at a concrete filled handle
and a line with a fresh `<Count>` occurrence. -/
theorem eselect_extracts_handle_witness :
    ∃ h' : Handle,
      scanLine ⟨some "A", some "B", some "C"⟩ "<Count>9</Count>" = .ok h' ∧
      h'.Count = some "C" := by
  refine ⟨⟨some "A", some "B", some "C"⟩, rfl, ?_⟩
  exact (eselect_extracts_handle.2.2.2 ⟨some "A", some "B", some "C"⟩
    "<Count>9</Count>" ⟨some "A", some "B", some "C"⟩ rfl).2.2 "C" rfl

/-! ### Claim C7 -/

/-- C7: under valid tool and parameters, `equery` raises nothing — whatever
bytes the response holds — and yields exactly one line per response body
line, each decoded with undecodable bytes repaired by omission; in
particular a line with malformed bytes is still yielded and all later
lines are unaffected. -/
theorem equery_tolerant_decoding (tool : String)
    (params : List (String × String)) (net : Net)
    (hv : equeryValid tool params = true) :
    (equery tool params net).err = none ∧
    (equery tool params net).lines.length = (net ⟨tool, params⟩).length ∧
    (equery tool params net).lines =
      (net ⟨tool, params⟩).map (fun bs => pyRstrip (decodeAsciiIgnore bs)) := by
  rw [equery_of_valid tool params net hv]
  exact ⟨rfl, List.length_map _ _, rfl⟩

/-- Witness for C7: a response whose first line holds the undecodable byte
`200`; the line is still yielded and the following line is unaffected. -/
theorem equery_tolerant_decoding_witness :
    (equery "fetch" [("db", "snp")]
        (fun _ => [[72, 105, 200, 33], [79, 107]])).err = none ∧
    (equery "fetch" [("db", "snp")]
        (fun _ => [[72, 105, 200, 33], [79, 107]])).lines.length = 2 ∧
    (equery "fetch" [("db", "snp")]
        (fun _ => [[72, 105, 200, 33], [79, 107]])).lines = ["Hi!", "Ok"] := by
  have h := equery_tolerant_decoding "fetch" [("db", "snp")]
    (fun _ => [[72, 105, 200, 33], [79, 107]]) (by decide)
  exact ⟨h.1, h.2.1, by rw [h.2.2]; rfl⟩

/-! ### Claim C8 -/

/-- C8 counterexample: on the body line `"ab \n"` (bytes 97, 98, 32, 10 —
a non-terminator trailing space before the newline) `equery` yields
`"ab"`, while stripping only the line terminators would keep the space:
the claim that non-terminator trailing whitespace is preserved is false. -/
theorem equery_strips_trailing_space :
    (equery "search" [] (fun _ => [[97, 98, 32, 10]])).lines = ["ab"] ∧
    specStripEOL (decodeAsciiIgnore [97, 98, 32, 10]) = "ab " ∧
    ("ab" : String) ≠ "ab " := by decide

/-- Characters dropped from the front by `dropWhile` aside, the first
remaining character fails the predicate. -/
theorem head?_dropWhile_not {α : Type} (p : α → Bool) (l : List α) :
    ∀ c, (l.dropWhile p).head? = some c → p c = false := by
  induction l with
  | nil => intro c h; cases h
  | cons a as ih =>
    intro c h
    cases hp : p a with
    | true =>
      rw [List.dropWhile_cons_of_pos hp] at h
      exact ih c h
    | false =>
      rw [List.dropWhile_cons_of_neg (by simp [hp])] at h
      rw [List.head?_cons] at h
      obtain rfl := Option.some.inj h
      exact hp

/-- C8 (amended): each yielded line is the decoded text of the response
line with its maximal trailing run of whitespace characters stripped —
line terminators and any other trailing whitespace alike — and every
character before that trailing run is preserved unchanged (the stripped
line is a prefix of the decoded line, the dropped suffix is all whitespace,
and the stripped line does not end in whitespace). -/
theorem equery_line_transform (tool : String)
    (params : List (String × String)) (net : Net)
    (hv : equeryValid tool params = true) :
    ((equery tool params net).lines =
      (net ⟨tool, params⟩).map
        (fun bs => pyRstrip (decodeAsciiIgnore bs))) ∧
    ∀ s : String, ∃ t : List Char,
      s.toList = (pyRstrip s).toList ++ t ∧
      (∀ c ∈ t, isPySpace c = true) ∧
      (∀ c, (pyRstrip s).toList.getLast? = some c → isPySpace c = false) := by
  constructor
  · rw [equery_of_valid tool params net hv]
  · intro s
    refine ⟨(s.toList.reverse.takeWhile isPySpace).reverse, ?_, ?_, ?_⟩
    · have hsplit : s.toList.reverse.takeWhile isPySpace ++
          s.toList.reverse.dropWhile isPySpace = s.toList.reverse :=
        List.takeWhile_append_dropWhile isPySpace _
      have : s.toList.reverse.reverse =
          (s.toList.reverse.dropWhile isPySpace).reverse ++
          (s.toList.reverse.takeWhile isPySpace).reverse := by
        rw [← List.reverse_append, hsplit]
      rw [List.reverse_reverse] at this
      conv_lhs => rw [this]
      unfold pyRstrip rstripChars
      rw [List.toList_asString]
    · intro c hc
      rw [List.mem_reverse] at hc
      exact List.mem_takeWhile_imp hc
    · intro c hc
      unfold pyRstrip rstripChars at hc
      rw [List.toList_asString, List.getLast?_reverse] at hc
      exact head?_dropWhile_not isPySpace _ c hc

/-- Witness for C8 (amended) on a concrete response line with trailing
space and newline. -/
theorem equery_line_transform_witness :
    ((equery "search" [] (fun _ => [[97, 98, 32, 10]])).lines =
      ((fun _ => [[97, 98, 32, 10]] : Net) ⟨"search", []⟩).map
        (fun bs => pyRstrip (decodeAsciiIgnore bs))) ∧
    ∃ t : List Char,
      ("ab \n" : String).toList = (pyRstrip "ab \n").toList ++ t ∧
      (∀ c ∈ t, isPySpace c = true) ∧
      (∀ c, (pyRstrip "ab \n").toList.getLast? = some c →
        isPySpace c = false) := by
  have h := equery_line_transform "search" [] (fun _ => [[97, 98, 32, 10]])
    (by decide)
  exact ⟨h.1, h.2 "ab \n"⟩

end Entrez
